import Mathlib

/-!
Verification of the technical-indicator engine and its caching layer
(`server/stockService.ts` indicator methods, `storage.ts` MemStorage maps,
and the `/api/stock/:symbol/technical` route handler).

Modelling conventions:
* JavaScript numbers are modelled as exact rationals (`ℚ`); `Math.sqrt`
  is modelled as the exact real square root (`Real.sqrt` over `ℝ`).
* A value that is JavaScript `NaN` (it arises in this code only from the
  `0/0` in `calculateSMA` on an empty series, and propagates from there
  into the Bollinger fields) is modelled as `none` in an `Option` type.
* `Number(x.toFixed(2))` is modelled exactly: the integer `n` minimizing
  `|n/100 - x|`, ties resolved to the larger `n`, i.e. `⌊100*x + 1/2⌋ / 100`.
* `Date.now()` / `new Date()` timestamps are integer milliseconds passed
  explicitly as a `now : ℤ` parameter.
-/

/-- `prices.slice(-period)` for a JS array: the trailing `period` elements
(the whole array when `period = 0`, since `-0 === 0`, or when `period`
exceeds the length, since JS clamps the start index at 0 — which truncated
`Nat` subtraction reproduces). -/
def jsSliceLast (l : List ℚ) (period : ℕ) : List ℚ :=
  if period = 0 then l else l.drop (l.length - period)

/-- The effective period of `calculateSMA`: the source mutates `period`
to `prices.length` when fewer prices than `period` are available. -/
def smaEffPeriod (prices : List ℚ) (period : ℕ) : ℕ :=
  if prices.length < period then prices.length else period

/-- The value `slice.reduce((a, b) => a + b, 0) / slice.length` computed by
`calculateSMA` (meaningful only when the slice is non-empty). -/
def smaValue (prices : List ℚ) (period : ℕ) : ℚ :=
  let slice := jsSliceLast prices (smaEffPeriod prices period)
  slice.sum / slice.length

/-- `calculateSMA(prices, period)` from `stockService.ts`: mean of the
trailing `min(period, length)` closes. On an empty array the source
computes `0 / 0 = NaN`, modelled as `none`. -/
def calculateSMA (prices : List ℚ) (period : ℕ) : Option ℚ :=
  let slice := jsSliceLast prices (smaEffPeriod prices period)
  if slice.length = 0 then none else some (slice.sum / slice.length)

/-- The body of the `for` loop of `calculateEMA`: starting from the
accumulator `ema`, fold `ema = price * k + ema * (1 - k)` over the
remaining prices, left to right. -/
def emaLoop (k : ℚ) : ℚ → List ℚ → ℚ
  | ema, [] => ema
  | ema, p :: rest => emaLoop k (p * k + ema * (1 - k)) rest

/-- `calculateEMA(prices, period)` from `stockService.ts`: returns 0 on an
empty array, otherwise seeds the accumulator with `prices[0]` and runs the
recurrence with `k = 2 / (period + 1)` over the rest of the whole array. -/
def calculateEMA (prices : List ℚ) (period : ℕ) : ℚ :=
  match prices with
  | [] => 0
  | h :: t => emaLoop (2 / ((period : ℚ) + 1)) h t

/-- `Number(x.toFixed(2))` on an exact rational: round to 2 decimal places,
ties to the larger candidate. -/
def round2Q (x : ℚ) : ℚ := (⌊x * 100 + 1 / 2⌋ : ℤ) / 100

/-- `calculateRSI(prices, period)` from `stockService.ts`. Fewer than
`period + 1` prices yield the neutral fallback 50; otherwise the last
`period` day-over-day changes are split into gains and losses, each summed
and divided by `period` (0 when there is no change of that sign), and
`avgLoss = 0` short-circuits to 100. -/
def calculateRSI (prices : List ℚ) (period : ℕ := 14) : ℚ :=
  if prices.length < period + 1 then 50
  else
    let changes := List.zipWith (fun a b => b - a) prices prices.tail
    let window := jsSliceLast changes period
    let gains := window.filter (fun c => decide (0 < c))
    let losses := (window.filter (fun c => decide (c < 0))).map (fun c => |c|)
    let avgGain : ℚ := if 0 < gains.length then gains.sum / (period : ℚ) else 0
    let avgLoss : ℚ := if 0 < losses.length then losses.sum / (period : ℚ) else 0
    if avgLoss = 0 then 100
    else 100 - 100 / (1 + avgGain / avgLoss)

/-- The record `{value, signal, histogram}` returned by `calculateMACD`. -/
structure MACDResult where
  value : ℚ
  signal : ℚ
  histogram : ℚ
  deriving Repr, DecidableEq

/-- `calculateMACD(prices)` from `stockService.ts`: the MACD line is
`ema(prices, 12) - ema(prices, 26)`; the returned fields are 2-decimal
roundings of the line, of `line * 0.8` and of `line * 0.2`. -/
def calculateMACD (prices : List ℚ) : MACDResult :=
  let macdLine := calculateEMA prices 12 - calculateEMA prices 26
  { value := round2Q macdLine
    signal := round2Q (macdLine * 0.8)
    histogram := round2Q (macdLine * 0.2) }

/-- `Number(x.toFixed(2))` on a real value (the Bollinger fields pass
through `Math.sqrt`, so they live in `ℝ`). -/
noncomputable def round2 (x : ℝ) : ℝ := (⌊x * 100 + 1 / 2⌋ : ℤ) / 100

/-- The record `{upper, middle, lower}` returned by `calculateBollingerBands`;
`none` models `NaN` (the empty-series case). -/
structure BollingerBands where
  upper : Option ℝ
  middle : Option ℝ
  lower : Option ℝ

/-- The variance computed by `calculateBollingerBands`: squared deviations of
the trailing `period` prices from `m`, summed and divided by `period`
(the parameter, not the slice length). -/
def bollVariance (prices : List ℚ) (m : ℚ) (period : ℕ) : ℚ :=
  ((jsSliceLast prices period).map (fun p => (p - m) ^ 2)).sum / (period : ℚ)

/-- `calculateBollingerBands(prices, period)` from `stockService.ts`:
`sma = calculateSMA(prices, period)`, population-style variance of the
trailing slice around it divided by `period`, `stdDev = sqrt(variance)`,
bands at `sma ± stdDev * 2`, all rounded to 2 decimals. When the series is
empty, `sma` is `NaN` and every band is `NaN` (`none`). -/
noncomputable def calculateBollingerBands (prices : List ℚ) (period : ℕ := 20) :
    BollingerBands :=
  match calculateSMA prices period with
  | none => ⟨none, none, none⟩
  | some m =>
    let stdDev : ℝ := Real.sqrt (bollVariance prices m period)
    ⟨some (round2 ((m : ℝ) + stdDev * 2)),
     some (round2 (m : ℝ)),
     some (round2 ((m : ℝ) - stdDev * 2))⟩

/-- One element of the `HistoricalPrice[]` input: a daily OHLCV bar.
(`opn` renders the TS field `open`, a reserved word in Lean.) -/
structure HistoricalPrice where
  date : String
  opn : ℚ
  high : ℚ
  low : ℚ
  close : ℚ
  volume : ℚ

/-- The `movingAverages` sub-record of a `TechnicalIndicators` value. -/
structure MovingAverages where
  ma20 : Option ℚ
  ma50 : Option ℚ
  ma200 : Option ℚ
  deriving Repr, DecidableEq

/-- The `TechnicalIndicators` record of `@shared/schema`:
`lastUpdated` is the `new Date()` stamp, modelled as the integer
millisecond clock reading at the time of the call. -/
structure TechnicalIndicators where
  symbol : String
  rsi : ℚ
  macd : MACDResult
  movingAverages : MovingAverages
  bollingerBands : BollingerBands
  lastUpdated : ℤ

/-- `calculateTechnicalIndicators(prices, symbol)` from `stockService.ts`,
with the `new Date()` clock reading made an explicit `now` parameter. -/
noncomputable def calculateTechnicalIndicators (now : ℤ)
    (prices : List HistoricalPrice) (symbol : String) : TechnicalIndicators :=
  let closes := prices.map (·.close)
  { symbol := symbol
    rsi := calculateRSI closes 14
    macd := calculateMACD closes
    movingAverages :=
      ⟨calculateSMA closes 20, calculateSMA closes 50,
       calculateSMA closes (min 200 closes.length)⟩
    bollingerBands := calculateBollingerBands closes 20
    lastUpdated := now }

/-- `MemStorage.getTechnicalIndicators(symbol)`: a plain map lookup. -/
def getTechnicalIndicators (m : String → Option TechnicalIndicators)
    (symbol : String) : Option TechnicalIndicators :=
  m symbol

/-- `MemStorage.setTechnicalIndicators(indicators)`: stores the value under
the key `indicators.symbol`, unconditionally overwriting. -/
def setTechnicalIndicatorsMap (m : String → Option TechnicalIndicators)
    (v : TechnicalIndicators) : String → Option TechnicalIndicators :=
  fun s => if s = v.symbol then some v else m s

/-- `MemStorage.setHistoricalPrices(symbol, timeframe, prices)`: the nested
maps amount to overwriting the entry at `(symbol, timeframe)`. -/
def setHistoricalPricesMap (m : String → String → List HistoricalPrice)
    (symbol timeframe : String) (prices : List HistoricalPrice) :
    String → String → List HistoricalPrice :=
  fun s t => if s = symbol ∧ t = timeframe then prices else m s t

/-- The staleness test inlined in the route handlers:
`!indicators || (Date.now() - indicators.lastUpdated.getTime()) > ttl`. -/
def isStaleEntry (entry : Option TechnicalIndicators) (now ttl : ℤ) : Bool :=
  match entry with
  | none => true
  | some ind => decide (now - ind.lastUpdated > ttl)

/-- The route-level staleness predicate applied to the stored cache map. -/
def isStale (m : String → Option TechnicalIndicators) (symbol : String)
    (now ttl : ℤ) : Bool :=
  isStaleEntry (m symbol) now ttl

/-- The parts of `MemStorage` that the `/api/stock/:symbol/technical`
handler reads and writes: the technical-indicator map and the
historical-price map (`getHistoricalPrices` returns `[]` for a missing
entry, so the map carries the `[]` default directly). -/
structure OrchestratorState where
  techCache : String → Option TechnicalIndicators
  histCache : String → String → List HistoricalPrice

/-- The `/api/stock/:symbol/technical` handler of `registerRoutes`.
`fetchHist` stands for the external collaborator
`stockService.getHistoricalPrices`. The result is
`(response body, state after the call, number of calls to
calculateTechnicalIndicators, number of upstream fetches)`; a `none`
response body is the 404 "Technical indicators not available" reply. -/
noncomputable def technicalHandler
    (fetchHist : String → String → List HistoricalPrice) (now : ℤ)
    (st : OrchestratorState) (symbol : String) :
    Option TechnicalIndicators × OrchestratorState × ℕ × ℕ :=
  let cached := st.techCache symbol
  if isStaleEntry cached now 300000 then
    let hist := st.histCache symbol "1M"
    if hist.length = 0 then
      let fresh := fetchHist symbol "1M"
      if fresh.length = 0 then
        -- nothing obtainable: the (possibly stale) cached value is served
        (cached, st, 0, 1)
      else
        let ind := calculateTechnicalIndicators now fresh symbol
        (some ind,
         ⟨setTechnicalIndicatorsMap st.techCache ind,
          setHistoricalPricesMap st.histCache symbol "1M" fresh⟩, 1, 1)
    else
      let ind := calculateTechnicalIndicators now hist symbol
      (some ind, ⟨setTechnicalIndicatorsMap st.techCache ind, st.histCache⟩, 1, 0)
  else
    (cached, st, 0, 0)

/-- 20 closes split symmetrically around 100 at distance 1/500: a series
whose trailing 20-close window has nonzero variance but whose Bollinger
bands all round to the same cent. -/
def c1Closes : List ℚ :=
  List.replicate 10 (100 + 1 / 500) ++ List.replicate 10 (100 - 1 / 500)

/-- One flat bar whose close is exactly 100. -/
def flatBar : HistoricalPrice :=
  { date := "2024-01-01", opn := 100, high := 100, low := 100, close := 100,
    volume := 0 }

/-- 30 days of bars with every close exactly 100 (zero volatility). -/
def flatBars : List HistoricalPrice := List.replicate 30 flatBar

/-- A collaborator that never has data. -/
def emptyFetch : String → String → List HistoricalPrice := fun _ _ => []

/-- Storage with no cached indicators and no cached bars. -/
def emptyOrchState : OrchestratorState := ⟨fun _ => none, fun _ _ => []⟩

/-- A concrete snapshot used to exercise the cache contract. -/
def sampleIndicators : TechnicalIndicators :=
  { symbol := "TCS", rsi := 50, macd := ⟨0, 0, 0⟩,
    movingAverages := ⟨none, none, none⟩,
    bollingerBands := ⟨none, none, none⟩, lastUpdated := 1000 }

/-- Storage holding `sampleIndicators` for "TCS" and no bars. -/
def sampleOrchState : OrchestratorState :=
  ⟨fun s => if s = "TCS" then some sampleIndicators else none, fun _ _ => []⟩

/-- The rounded middle Bollinger band of `calculateBollingerBands(closes, 20)`
on a non-empty series. -/
noncomputable def bbMiddle (closes : List ℚ) : ℝ :=
  round2 (smaValue closes 20 : ℝ)

/-- The rounded upper Bollinger band on a non-empty series. -/
noncomputable def bbUpper (closes : List ℚ) : ℝ :=
  round2 ((smaValue closes 20 : ℝ) +
    Real.sqrt (bollVariance closes (smaValue closes 20) 20) * 2)

/-- The rounded lower Bollinger band on a non-empty series. -/
noncomputable def bbLower (closes : List ℚ) : ℝ :=
  round2 ((smaValue closes 20 : ℝ) -
    Real.sqrt (bollVariance closes (smaValue closes 20) 20) * 2)

/-- The trailing slice of a series is empty exactly when the series is. -/
theorem jsSliceLast_eq_nil_iff (l : List ℚ) (n : ℕ) :
    jsSliceLast l n = [] ↔ l = [] := by
  unfold jsSliceLast
  by_cases hn : n = 0
  · rw [if_pos hn]
  · rw [if_neg hn, List.drop_eq_nil_iff, ← List.length_eq_zero]
    omega

/-- On a non-empty series `calculateSMA` returns the mean of the trailing
slice (the `NaN` case does not arise). -/
theorem calculateSMA_of_ne_nil (prices : List ℚ) (h : prices ≠ [])
    (period : ℕ) : calculateSMA prices period = some (smaValue prices period) := by
  simp only [calculateSMA, smaValue]
  rw [if_neg]
  intro hlen
  exact h ((jsSliceLast_eq_nil_iff prices (smaEffPeriod prices period)).mp
    (List.length_eq_zero.mp hlen))

/-- On a non-empty series the Bollinger bands are the three rounded values
around the trailing-window mean. -/
theorem calculateBollingerBands_of_ne_nil (closes : List ℚ) (h : closes ≠ []) :
    calculateBollingerBands closes 20 =
      ⟨some (bbUpper closes), some (bbMiddle closes), some (bbLower closes)⟩ := by
  unfold calculateBollingerBands bbUpper bbMiddle bbLower
  rw [calculateSMA_of_ne_nil closes h 20]

/-- `Number(x.toFixed(2))` is monotone. -/
theorem round2_mono {x y : ℝ} (h : x ≤ y) : round2 x ≤ round2 y := by
  unfold round2
  have hf : ((⌊x * 100 + 1 / 2⌋ : ℤ) : ℝ) ≤ ((⌊y * 100 + 1 / 2⌋ : ℤ) : ℝ) := by
    exact_mod_cast Int.floor_le_floor (by linarith : x * 100 + 1 / 2 ≤ y * 100 + 1 / 2)
  linarith

/-- The variance computed by `calculateBollingerBands` is non-negative. -/
theorem bollVariance_nonneg (prices : List ℚ) (m : ℚ) (period : ℕ) :
    0 ≤ bollVariance prices m period := by
  unfold bollVariance
  apply div_nonneg _ (by positivity)
  apply List.sum_nonneg
  intro x hx
  obtain ⟨p, _, rfl⟩ := List.mem_map.mp hx
  positivity

/-- C1 (amended): on every non-empty close series the Bollinger bands are
the rounded values around the trailing-window mean with
`lower ≤ middle ≤ upper`, and zero variance of the trailing window forces
the three bands to coincide. (The converse — equality only under zero
variance — fails because of the 2-decimal rounding; see
`bollingerBands_equal_with_nonzero_variance`.) -/
theorem bollingerBands_ordered_and_collapse (closes : List ℚ)
    (h : closes ≠ []) :
    calculateBollingerBands closes 20 =
      ⟨some (bbUpper closes), some (bbMiddle closes), some (bbLower closes)⟩ ∧
    bbLower closes ≤ bbMiddle closes ∧ bbMiddle closes ≤ bbUpper closes ∧
    (bollVariance closes (smaValue closes 20) 20 = 0 →
      bbLower closes = bbMiddle closes ∧ bbMiddle closes = bbUpper closes) := by
  have hσ : 0 ≤ Real.sqrt (bollVariance closes (smaValue closes 20) 20 : ℚ) :=
    Real.sqrt_nonneg _
  refine ⟨calculateBollingerBands_of_ne_nil closes h, ?_, ?_, ?_⟩
  · unfold bbLower bbMiddle
    exact round2_mono (by linarith)
  · unfold bbMiddle bbUpper
    exact round2_mono (by linarith)
  · intro hv
    unfold bbLower bbMiddle bbUpper
    rw [hv]
    norm_num [Real.sqrt_zero]

/-- Witness for C1 at the one-element series `[1]`. -/
theorem bollingerBands_ordered_and_collapse_witness :
    ([1] : List ℚ) ≠ [] ∧
    (calculateBollingerBands [1] 20 =
      ⟨some (bbUpper [1]), some (bbMiddle [1]), some (bbLower [1])⟩ ∧
     bbLower [1] ≤ bbMiddle [1] ∧ bbMiddle [1] ≤ bbUpper [1] ∧
     (bollVariance [1] (smaValue [1] 20) 20 = 0 →
       bbLower [1] = bbMiddle [1] ∧ bbMiddle [1] = bbUpper [1])) :=
  ⟨by simp, bollingerBands_ordered_and_collapse [1] (by simp)⟩

/-- C1 counterexample: on `c1Closes` the trailing-window variance is
`1/250000 ≠ 0`, yet all three Bollinger bands round to the same value, so
the bands are NOT equal "only when" the window has zero variance. -/
theorem bollingerBands_equal_with_nonzero_variance :
    (calculateBollingerBands c1Closes 20).upper =
      (calculateBollingerBands c1Closes 20).middle ∧
    (calculateBollingerBands c1Closes 20).lower =
      (calculateBollingerBands c1Closes 20).middle ∧
    bollVariance c1Closes (smaValue c1Closes 20) 20 ≠ 0 := by
  have hne : c1Closes ≠ [] := by simp [c1Closes]
  have hsma : smaValue c1Closes 20 = 100 := by
    norm_num [smaValue, c1Closes, jsSliceLast, smaEffPeriod, List.replicate]
  have hvar : bollVariance c1Closes 100 20 = 1 / 250000 := by
    norm_num [bollVariance, c1Closes, jsSliceLast, List.replicate]
  have hsq : Real.sqrt ((1 / 250000 : ℚ) : ℝ) = 1 / 500 := by
    rw [show ((1 / 250000 : ℚ) : ℝ) = (1 / 500 : ℝ) ^ 2 by norm_num,
      Real.sqrt_sq (by norm_num)]
  have hm : bbMiddle c1Closes = 100 := by
    unfold bbMiddle round2
    rw [hsma]
    norm_num
  have hu : bbUpper c1Closes = 100 := by
    unfold bbUpper round2
    rw [hsma, hvar, hsq]
    norm_num
  have hl : bbLower c1Closes = 100 := by
    unfold bbLower round2
    rw [hsma, hvar, hsq]
    norm_num
  rw [calculateBollingerBands_of_ne_nil c1Closes hne]
  refine ⟨?_, ?_, ?_⟩
  · dsimp only
    rw [hu, hm]
  · dsimp only
    rw [hl, hm]
  · rw [hsma, hvar]
    norm_num

/-- Range of the final RSI expression, for any non-negative average gain
and loss. -/
theorem rsi_formula_bounds (g l : ℚ) (hg : 0 ≤ g) (hl : 0 ≤ l) :
    0 ≤ (if l = 0 then (100 : ℚ) else 100 - 100 / (1 + g / l)) ∧
    (if l = 0 then (100 : ℚ) else 100 - 100 / (1 + g / l)) ≤ 100 := by
  split
  · norm_num
  · rename_i hne
    have hl2 : 0 < l := lt_of_le_of_ne hl (Ne.symm hne)
    have hr : 0 ≤ g / l := div_nonneg hg hl2.le
    constructor
    · have hle : 100 / (1 + g / l) ≤ 100 := div_le_self (by norm_num) (by linarith)
      linarith
    · have hpos : 0 < 100 / (1 + g / l) := by positivity
      linarith

/-- C2: `calculateRSI(closes, 14)` always lies in `[0, 100]`, and with
fewer than 15 closes it returns the neutral fallback 50 instead of
failing. -/
theorem rsi_bounds_and_neutral_fallback (closes : List ℚ) :
    0 ≤ calculateRSI closes 14 ∧ calculateRSI closes 14 ≤ 100 ∧
    (closes.length < 15 → calculateRSI closes 14 = 50) := by
  have main : 0 ≤ calculateRSI closes 14 ∧ calculateRSI closes 14 ≤ 100 := by
    unfold calculateRSI
    split
    · norm_num
    · refine rsi_formula_bounds _ _ ?_ ?_
      · split
        · apply div_nonneg _ (by norm_num)
          apply List.sum_nonneg
          intro x hx
          have hx2 := of_decide_eq_true (List.mem_filter.mp hx).2
          linarith
        · exact le_refl 0
      · split
        · apply div_nonneg _ (by norm_num)
          apply List.sum_nonneg
          intro x hx
          obtain ⟨c, _, rfl⟩ := List.mem_map.mp hx
          exact abs_nonneg c
        · exact le_refl 0
  refine ⟨main.1, main.2, fun h => ?_⟩
  unfold calculateRSI
  rw [if_pos (show closes.length < 14 + 1 by omega)]

/-- Witness for C2 on a 2-close series (fewer than 15 closes). -/
theorem rsi_bounds_and_neutral_fallback_witness :
    0 ≤ calculateRSI [10, 11] 14 ∧ calculateRSI [10, 11] 14 ≤ 100 ∧
    calculateRSI [10, 11] 14 = 50 :=
  ⟨(rsi_bounds_and_neutral_fallback [10, 11]).1,
   (rsi_bounds_and_neutral_fallback [10, 11]).2.1,
   (rsi_bounds_and_neutral_fallback [10, 11]).2.2 (by norm_num)⟩

/-- C3 counterexample: at `closes = [0, 1]` the returned MACD fields are
NOT the exact claimed quantities — `value ≠ ema12 - ema26` and
`signal/histogram` are not `0.8/0.2` times the returned `value` — because
every field is rounded to 2 decimals before being returned. -/
theorem macd_fields_not_exact_fractions :
    (calculateMACD [0, 1]).value ≠
      calculateEMA [0, 1] 12 - calculateEMA [0, 1] 26 ∧
    (calculateMACD [0, 1]).signal ≠ 0.8 * (calculateMACD [0, 1]).value ∧
    (calculateMACD [0, 1]).histogram ≠ 0.2 * (calculateMACD [0, 1]).value := by
  norm_num [calculateMACD, calculateEMA, emaLoop, round2Q]

/-- C3 (amended): the MACD fields are the 2-decimal roundings of the MACD
line `ema(closes,12) - ema(closes,26)`, of `line * 0.8` and of
`line * 0.2` — fixed fractions of the unrounded line, not an independent
9-period EMA. -/
theorem macd_rounded_fixed_fractions (closes : List ℚ) :
    calculateMACD closes =
      ⟨round2Q (calculateEMA closes 12 - calculateEMA closes 26),
       round2Q ((calculateEMA closes 12 - calculateEMA closes 26) * 0.8),
       round2Q ((calculateEMA closes 12 - calculateEMA closes 26) * 0.2)⟩ :=
  rfl

/-- The `for` loop of `calculateEMA` is a left fold. -/
theorem emaLoop_eq_foldl (k : ℚ) (acc : ℚ) (l : List ℚ) :
    emaLoop k acc l = l.foldl (fun e p => p * k + e * (1 - k)) acc := by
  induction l generalizing acc with
  | nil => rfl
  | cons p rest ih => simp only [emaLoop, List.foldl, ih]

/-- C4: for every non-empty close series and period `p > 0`,
`calculateEMA` is the left fold of the recurrence
`ema = close * k + ema * (1 - k)`, `k = 2/(p+1)`, seeded with the first
close and run over the ENTIRE remaining series; consequently two series
sharing the trailing `p` closes can still yield different EMAs. -/
theorem ema_full_history_fold :
    (∀ (closes : List ℚ) (p : ℕ), 0 < p → closes ≠ [] →
      calculateEMA closes p =
        closes.tail.foldl
          (fun e c => c * (2 / ((p : ℚ) + 1)) + e * (1 - 2 / ((p : ℚ) + 1)))
          closes.headI) ∧
    jsSliceLast [0, 1, 2] 2 = jsSliceLast [9, 1, 2] 2 ∧
    calculateEMA [0, 1, 2] 2 ≠ calculateEMA [9, 1, 2] 2 := by
  refine ⟨?_, by norm_num [jsSliceLast], by norm_num [calculateEMA, emaLoop]⟩
  intro closes p _ h
  cases closes with
  | nil => exact absurd rfl h
  | cons a t => simp only [calculateEMA, emaLoop_eq_foldl, List.tail_cons,
      List.headI]

/-- Witness for C4 at `closes = [3, 4]`, `p = 2`. -/
theorem ema_full_history_fold_witness :
    0 < 2 ∧ ([3, 4] : List ℚ) ≠ [] ∧
    calculateEMA [3, 4] 2 =
      ([3, 4] : List ℚ).tail.foldl
        (fun e c => c * (2 / (((2 : ℕ) : ℚ) + 1)) +
          e * (1 - 2 / (((2 : ℕ) : ℚ) + 1)))
        ([3, 4] : List ℚ).headI :=
  ⟨by norm_num, by simp,
   ema_full_history_fold.1 [3, 4] 2 (by norm_num) (by simp)⟩

/-- C5 counterexample: given zero bars the Aggregator does NOT fail with
`InsufficientData` (no such error exists in the code): it returns a normal
snapshot with the documented fallback values. -/
theorem empty_bars_snapshot_returned :
    calculateTechnicalIndicators 0 [] "TCS" =
      ⟨"TCS", 50, ⟨0, 0, 0⟩, ⟨none, none, none⟩, ⟨none, none, none⟩, 0⟩ := by
  unfold calculateTechnicalIndicators
  norm_num [calculateRSI, calculateMACD, calculateEMA, round2Q, calculateSMA,
    jsSliceLast, smaEffPeriod, calculateBollingerBands,
    TechnicalIndicators.mk.injEq, MACDResult.mk.injEq, MovingAverages.mk.injEq,
    BollingerBands.mk.injEq]

/-- C5 (amended): on an empty close series `calculateSMA` and every
`calculateBollingerBands` field evaluate to `NaN` (modelled `none`) and
`calculateMACD` returns zeros — graceful values, not an `EmptySeries`
error. -/
theorem empty_series_graceful_fallbacks (period : ℕ) :
    calculateSMA [] period = none ∧
    calculateBollingerBands [] period = ⟨none, none, none⟩ ∧
    calculateMACD [] = ⟨0, 0, 0⟩ := by
  have hs : calculateSMA [] period = none := by
    simp [calculateSMA, jsSliceLast, smaEffPeriod]
  refine ⟨hs, ?_, ?_⟩
  · unfold calculateBollingerBands
    rw [hs]
  · norm_num [calculateMACD, calculateEMA, round2Q, MACDResult.mk.injEq]

/-- The closes of the flat 30-bar series. -/
theorem flatBars_closes : flatBars.map (·.close) = List.replicate 30 (100 : ℚ) := by
  simp [flatBars, flatBar]

/-- RSI of the flat series: every change is 0, so gains and losses are both
empty, `avgLoss = 0`, and the short-circuit returns 100. -/
theorem rsi_flat_closes : calculateRSI (List.replicate 30 (100 : ℚ)) 14 = 100 := by
  norm_num [calculateRSI, jsSliceLast, List.replicate, List.zipWith]

/-- C6 counterexample: on 30 flat bars at close 100 the snapshot carries an
RSI that is not the claimed neutral 50 (the `avgLoss === 0` branch yields
100). -/
theorem flat_series_rsi_is_not_fifty :
    (calculateTechnicalIndicators 0 flatBars "TCS").rsi ≠ 50 := by
  have hr : (calculateTechnicalIndicators 0 flatBars "TCS").rsi =
      calculateRSI (List.replicate 30 (100 : ℚ)) 14 := by
    simp [calculateTechnicalIndicators, flatBars_closes]
  rw [hr, rsi_flat_closes]
  norm_num

/-- C6 (amended): on the flat 30-bar series the Bollinger bands are all
exactly 100, and the RSI is 100 (the `avgLoss === 0` short-circuit), not
the neutral 50. -/
theorem flat_series_snapshot_values (now : ℤ) (sym : String) :
    (calculateTechnicalIndicators now flatBars sym).bollingerBands =
      ⟨some 100, some 100, some 100⟩ ∧
    (calculateTechnicalIndicators now flatBars sym).rsi = 100 := by
  constructor
  · have hb : (calculateTechnicalIndicators now flatBars sym).bollingerBands =
        calculateBollingerBands (List.replicate 30 (100 : ℚ)) 20 := by
      simp [calculateTechnicalIndicators, flatBars_closes]
    have hsma : smaValue (List.replicate 30 (100 : ℚ)) 20 = 100 := by
      norm_num [smaValue, jsSliceLast, smaEffPeriod, List.replicate]
    have hvar : bollVariance (List.replicate 30 (100 : ℚ)) 100 20 = 0 := by
      norm_num [bollVariance, jsSliceLast, List.replicate]
    have hm : bbMiddle (List.replicate 30 (100 : ℚ)) = 100 := by
      unfold bbMiddle round2
      rw [hsma]
      norm_num
    have hu : bbUpper (List.replicate 30 (100 : ℚ)) = 100 := by
      unfold bbUpper round2
      rw [hsma, hvar]
      norm_num [Real.sqrt_zero]
    have hlo : bbLower (List.replicate 30 (100 : ℚ)) = 100 := by
      unfold bbLower round2
      rw [hsma, hvar]
      norm_num [Real.sqrt_zero]
    rw [hb, calculateBollingerBands_of_ne_nil _ (by simp), hu, hm, hlo]
  · have hr : (calculateTechnicalIndicators now flatBars sym).rsi =
        calculateRSI (List.replicate 30 (100 : ℚ)) 14 := by
      simp [calculateTechnicalIndicators, flatBars_closes]
    rw [hr, rsi_flat_closes]

/-- C7 (amended): when the cached entry for the symbol exists and is at
most 300000 ms old, the handler returns it unchanged with no
recomputation, no upstream fetch and no state write. When the entry is
absent or older, the handler performs exactly one recomputation and stores
the result PROVIDED a non-empty bar series is available (from the bar
cache, or failing that from one upstream fetch); when no bars are
obtainable it performs no recomputation, no store, and serves the cached
value as-is. -/
theorem technical_route_cache_policy
    (fetch : String → String → List HistoricalPrice) (now : ℤ)
    (st : OrchestratorState) (sym : String) :
    (∀ ind, st.techCache sym = some ind → now - ind.lastUpdated ≤ 300000 →
      technicalHandler fetch now st sym = (some ind, st, 0, 0)) ∧
    (isStaleEntry (st.techCache sym) now 300000 = true →
      (st.histCache sym "1M" ≠ [] →
        technicalHandler fetch now st sym =
          (some (calculateTechnicalIndicators now (st.histCache sym "1M") sym),
           ⟨setTechnicalIndicatorsMap st.techCache
              (calculateTechnicalIndicators now (st.histCache sym "1M") sym),
            st.histCache⟩, 1, 0) ∧
        (technicalHandler fetch now st sym).2.1.techCache sym =
          some (calculateTechnicalIndicators now (st.histCache sym "1M") sym)) ∧
      (st.histCache sym "1M" = [] → fetch sym "1M" ≠ [] →
        technicalHandler fetch now st sym =
          (some (calculateTechnicalIndicators now (fetch sym "1M") sym),
           ⟨setTechnicalIndicatorsMap st.techCache
              (calculateTechnicalIndicators now (fetch sym "1M") sym),
            setHistoricalPricesMap st.histCache sym "1M" (fetch sym "1M")⟩,
           1, 1) ∧
        (technicalHandler fetch now st sym).2.1.techCache sym =
          some (calculateTechnicalIndicators now (fetch sym "1M") sym)) ∧
      (st.histCache sym "1M" = [] → fetch sym "1M" = [] →
        technicalHandler fetch now st sym = (st.techCache sym, st, 0, 1))) := by
  constructor
  · intro ind hc hage
    have hstale : isStaleEntry (st.techCache sym) now 300000 = false := by
      rw [hc]
      simp only [isStaleEntry, decide_eq_false_iff_not]
      omega
    unfold technicalHandler
    simp only [hstale, Bool.false_eq_true, if_false]
    simp [hc]
  · intro hstale
    refine ⟨?_, ?_, ?_⟩
    · intro hne
      have hlen : ¬(st.histCache sym "1M").length = 0 := by
        simpa [List.length_eq_zero] using hne
      constructor
      · simp [technicalHandler, hstale, hlen]
      · simp [technicalHandler, hstale, hlen, setTechnicalIndicatorsMap,
          calculateTechnicalIndicators]
    · intro hemp hne
      have hlen2 : ¬(fetch sym "1M").length = 0 := by
        simpa [List.length_eq_zero] using hne
      constructor
      · simp [technicalHandler, hstale, hemp, hlen2]
      · simp [technicalHandler, hstale, hemp, hlen2, setTechnicalIndicatorsMap,
          calculateTechnicalIndicators]
    · intro hemp hfemp
      simp [technicalHandler, hstale, hemp, hfemp]

/-- Witness for C7, fresh-cache path: a 1000 ms old entry at TTL 300000 is
served unchanged with no recomputation, fetch or write. -/
theorem technical_route_cache_policy_witness :
    sampleOrchState.techCache "TCS" = some sampleIndicators ∧
    (2000 : ℤ) - sampleIndicators.lastUpdated ≤ 300000 ∧
    technicalHandler emptyFetch 2000 sampleOrchState "TCS" =
      (some sampleIndicators, sampleOrchState, 0, 0) :=
  ⟨by simp [sampleOrchState], by norm_num [sampleIndicators],
   (technical_route_cache_policy emptyFetch 2000 sampleOrchState "TCS").1
     sampleIndicators (by simp [sampleOrchState])
     (by norm_num [sampleIndicators])⟩

/-- C7 counterexample: with an absent cache entry (hence stale) but no
bars obtainable anywhere, the handler performs ZERO recomputations — not
the claimed exactly one — and stores nothing. -/
theorem technical_route_stale_without_bars_no_recompute :
    technicalHandler emptyFetch 0 emptyOrchState "TCS" =
      (none, emptyOrchState, 0, 1) ∧
    (technicalHandler emptyFetch 0 emptyOrchState "TCS").2.2.1 ≠ 1 := by
  have h : technicalHandler emptyFetch 0 emptyOrchState "TCS" =
      (none, emptyOrchState, 0, 1) := by
    simp [technicalHandler, emptyOrchState, emptyFetch, isStaleEntry]
  exact ⟨h, by rw [h]; norm_num⟩

/-- C8: after `setTechnicalIndicators(v)` a `get` for `v.symbol` returns
exactly `v` whatever was stored before; the route staleness test on the
freshly stored entry is false at the moment the value was stamped and
true once more than `ttl` ms have passed; and `isStale` holds exactly
when the entry is absent or `now - storedAt > ttl`. -/
theorem cache_set_get_and_staleness
    (cache : String → Option TechnicalIndicators) (v : TechnicalIndicators)
    (ttl now : ℤ) (httl : 0 ≤ ttl) :
    getTechnicalIndicators (setTechnicalIndicatorsMap cache v) v.symbol =
      some v ∧
    isStale (setTechnicalIndicatorsMap cache v) v.symbol v.lastUpdated ttl =
      false ∧
    (now - v.lastUpdated > ttl →
      isStale (setTechnicalIndicatorsMap cache v) v.symbol now ttl = true) ∧
    (isStale cache v.symbol now ttl = true ↔
      ∀ w, cache v.symbol = some w → now - w.lastUpdated > ttl) := by
  have hset : setTechnicalIndicatorsMap cache v v.symbol = some v := by
    simp [setTechnicalIndicatorsMap]
  refine ⟨hset, ?_, ?_, ?_⟩
  · simp only [isStale, hset, isStaleEntry, decide_eq_false_iff_not]
    omega
  · intro h
    simp only [isStale, hset, isStaleEntry, decide_eq_true_eq]
    omega
  · unfold isStale isStaleEntry
    cases hc : cache v.symbol with
    | none => simp
    | some w => simp

/-- Witness for C8: storing `sampleIndicators` (stamped at 1000 ms) into
an empty cache, then reading back and testing staleness at 1000 ms and at
700000 ms with TTL 300000. -/
theorem cache_set_get_and_staleness_witness :
    (0 : ℤ) ≤ 300000 ∧
    getTechnicalIndicators
      (setTechnicalIndicatorsMap (fun _ => none) sampleIndicators)
      sampleIndicators.symbol = some sampleIndicators ∧
    isStale (setTechnicalIndicatorsMap (fun _ => none) sampleIndicators)
      sampleIndicators.symbol sampleIndicators.lastUpdated 300000 = false ∧
    isStale (setTechnicalIndicatorsMap (fun _ => none) sampleIndicators)
      sampleIndicators.symbol 700000 300000 = true := by
  have h := cache_set_get_and_staleness (fun _ => none) sampleIndicators
    300000 700000 (by norm_num)
  exact ⟨by norm_num, h.1, h.2.1, h.2.2.1 (by norm_num [sampleIndicators])⟩

/-- C9 counterexample: two aggregator calls on identical bars at clock
readings 0 and 1 give snapshots that are not bit-identical (their
`lastUpdated` stamps differ). -/
theorem snapshots_at_different_times_differ :
    calculateTechnicalIndicators 0 [] "TCS" ≠
      calculateTechnicalIndicators 1 [] "TCS" := by
  intro h
  have hts := congrArg TechnicalIndicators.lastUpdated h
  norm_num [calculateTechnicalIndicators] at hts

/-- C9 (amended): every snapshot field except the `lastUpdated` timestamp
is a deterministic function of the bars and symbol alone — two calls with
the same bars agree on symbol, rsi, macd, moving averages and Bollinger
bands, whatever the clock reads. -/
theorem snapshot_numeric_fields_deterministic (t1 t2 : ℤ)
    (bars : List HistoricalPrice) (sym : String) :
    (calculateTechnicalIndicators t1 bars sym).symbol =
      (calculateTechnicalIndicators t2 bars sym).symbol ∧
    (calculateTechnicalIndicators t1 bars sym).rsi =
      (calculateTechnicalIndicators t2 bars sym).rsi ∧
    (calculateTechnicalIndicators t1 bars sym).macd =
      (calculateTechnicalIndicators t2 bars sym).macd ∧
    (calculateTechnicalIndicators t1 bars sym).movingAverages =
      (calculateTechnicalIndicators t2 bars sym).movingAverages ∧
    (calculateTechnicalIndicators t1 bars sym).bollingerBands =
      (calculateTechnicalIndicators t2 bars sym).bollingerBands :=
  ⟨rfl, rfl, rfl, rfl, rfl⟩

/-- C10: the aggregator and every helper it calls are total — modelled by
total functions — and on the empty bar list the snapshot carries the
fallback values: rsi 50, zero MACD, and `NaN` (`none`) for every moving
average and Bollinger field. -/
theorem aggregator_total_with_empty_fallback (now : ℤ) (sym : String) :
    calculateTechnicalIndicators now [] sym =
      ⟨sym, 50, ⟨0, 0, 0⟩, ⟨none, none, none⟩, ⟨none, none, none⟩, now⟩ := by
  unfold calculateTechnicalIndicators
  norm_num [calculateRSI, calculateMACD, calculateEMA, round2Q, calculateSMA,
    jsSliceLast, smaEffPeriod, calculateBollingerBands,
    TechnicalIndicators.mk.injEq, MACDResult.mk.injEq, MovingAverages.mk.injEq,
    BollingerBands.mk.injEq]
